import Mathlib

/-!
Verification of the RepoFactor multi-agent code-integration pipeline.

This file shallowly embeds the core components of the repository in Lean 4:
the orchestrator decision function and drive loop, the diff agent (including
a model of Python difflib.unified_diff), the Lightning AI client quota and
retry logic, the structured-output parser validation pass, and the
implementation agent, and proves or refutes the stated behavioural properties
about them.
-/

/- ============================================================ -/
/- Section 1: orchestrator decision                              -/
/- src/repofactor/application/agent_service/agent_orchestrator_decision.py -/
/- ============================================================ -/

/-- Modelled from the spec: the `OrchestratorState` record (spec section 3).
Its Python definition is imported from
`repofactor.domain.models.integration_models`, but that module (present in
the sources) does not define it; only its callers and tests are available.
Fields follow the spec: `approval_received` boolean gate, `current_stage`
stage marker string, `retry_count` non-negative counter, and the optional
`last_error_message`. -/
structure OrchestratorState where
  approval_received : Bool
  current_stage : String
  retry_count : Nat
  last_error_message : Option String := none
deriving Repr, DecidableEq

/-- Embedding of `orchestrator_decide_next` from
`agent_orchestrator_decision.py` (lines 4-33): a direct translation of the
if/elif chain deciding which agent runs next. -/
def orchestrator_decide_next (state : OrchestratorState) : String :=
  if state.approval_received = false then "wait_for_approval"
  else if state.current_stage = "init" then "analyzer_agent"
  else if state.current_stage = "analysis_complete" then "implementation_agent"
  else if state.current_stage = "implementation_failed" then
    (if state.retry_count < 3 then "research_agent" else "report_failure")
  else if state.current_stage = "implementation_complete" then "diff_agent"
  else if state.current_stage = "diff_complete" then "summary_agent"
  else if state.current_stage = "summary_complete" then "testing_agent"
  else if state.current_stage = "testing_complete" then "finalize"
  else "error"

/- ============================================================ -/
/- Section 2: diff agent                                         -/
/- src/repofactor/application/agent_service/diff_agent.py        -/
/- ============================================================ -/

/-- Line-break test of Python `str.splitlines` (newline, carriage return,
vertical tab, form feed, file/group/record separators, NEL, LINE SEPARATOR,
PARAGRAPH SEPARATOR). -/
def isLineBreak (c : Char) : Bool :=
  let n := c.toNat
  n = 10 || n = 13 || n = 11 || n = 12 || n = 0x1c || n = 0x1d || n = 0x1e ||
    n = 0x85 || n = 0x2028 || n = 0x2029

/-- Worker for `splitlines`: `cur` holds the current line, reversed; a
carriage return absorbs one immediately following newline. -/
def splitlinesAux : List Char → List Char → List String
  | [], [] => []
  | [], cur => [String.mk cur.reverse]
  | '\r' :: '\n' :: rest, cur => String.mk cur.reverse :: splitlinesAux rest []
  | c :: rest, cur =>
    if isLineBreak c then String.mk cur.reverse :: splitlinesAux rest []
    else splitlinesAux rest (c :: cur)

/-- Embedding of Python `str.splitlines()` (without `keepends`), as used by
`DiffAgent.generate_diff` on each file content. -/
def splitlines (s : String) : List String :=
  splitlinesAux s.data []

example : splitlines ("a\n") = ["a"] := by decide
example : splitlines ("\n") = [""] := by decide

/- Model of Python `difflib.unified_diff` (CPython difflib.py), which
`DiffAgent.generate_diff` calls for each changed path.  Restricted to the
configuration used by the source: `isjunk=None`, `n=3`, `lineterm=""`.
Floats never arise (autojunk thresholds are integer computations). -/

/-- A matching block `(i, j, size)` of `SequenceMatcher`. -/
structure MatchBlock where
  i : Nat
  j : Nat
  size : Nat
deriving Repr, DecidableEq

/-- An opcode `(tag, i1, i2, j1, j2)` of `SequenceMatcher.get_opcodes`. -/
structure Op where
  tag : String
  i1 : Nat
  i2 : Nat
  j1 : Nat
  j2 : Nat
deriving Repr, DecidableEq

/-- Indices of occurrences of `x` in `b`, ascending: the `b2j` table of
`SequenceMatcher.__chain_b`. -/
def occIndices (b : List String) (x : String) : List Nat :=
  (List.range b.length).filter (fun j => b.getD j "" = x)

/-- The autojunk rule of `SequenceMatcher.__chain_b`: for `len(b) >= 200`,
elements occurring more than 1% of the time are dropped from `b2j`. -/
def isPopular (b : List String) (x : String) : Bool :=
  decide (200 ≤ b.length) && decide (b.length / 100 + 1 < b.count x)

/-- The `b2j.get(a[i], [])` with the autojunk filtering applied. -/
def b2jGet (b : List String) (x : String) : List Nat :=
  if isPopular b x then [] else occIndices b x

/-- Inner loop of `find_longest_match` over the occurrence list of `a[i]`:
reads the previous `j2len` row, builds the new row, and updates the best
`(besti, bestj, bestsize)`.  The `continue`/`break` on `j < blo` / `j >= bhi`
are a filter because the occurrence list is ascending. -/
def flmInnerRow (j2len : List (Nat × Nat)) (i blo bhi : Nat) (js : List Nat)
    (best : MatchBlock) : List (Nat × Nat) × MatchBlock :=
  (js.filter (fun j => decide (blo ≤ j) && decide (j < bhi))).foldl
    (fun acc j =>
      let prev := if j = 0 then 0 else ((j2len.lookup (j - 1)).getD 0)
      let k := prev + 1
      let best2 := if acc.2.size < k then MatchBlock.mk (i + 1 - k) (j + 1 - k) k else acc.2
      ((j, k) :: acc.1, best2))
    ([], best)

/-- Left extension loop of `find_longest_match`
(`while besti > alo and bestj > blo and a[besti-1] == b[bestj-1]`);
the junk guard is vacuous since `isjunk=None`.  Fuel-bounded by `besti`. -/
def extendLeft (a b : List String) (alo blo : Nat) : Nat → MatchBlock → MatchBlock
  | 0, best => best
  | fuel + 1, best =>
    if alo < best.i ∧ blo < best.j ∧
        a.getD (best.i - 1) "" = b.getD (best.j - 1) "" then
      extendLeft a b alo blo fuel ⟨best.i - 1, best.j - 1, best.size + 1⟩
    else best

/-- Right extension loop of `find_longest_match`. -/
def extendRight (a b : List String) (ahi bhi : Nat) : Nat → MatchBlock → MatchBlock
  | 0, best => best
  | fuel + 1, best =>
    if best.i + best.size < ahi ∧ best.j + best.size < bhi ∧
        a.getD (best.i + best.size) "" = b.getD (best.j + best.size) "" then
      extendRight a b ahi bhi fuel ⟨best.i, best.j, best.size + 1⟩
    else best

/-- The `SequenceMatcher.find_longest_match(alo, ahi, blo, bhi)` with no junk. -/
def findLongestMatch (a b : List String) (alo ahi blo bhi : Nat) : MatchBlock :=
  let dp := (List.range' alo (ahi - alo)).foldl
    (fun (acc : List (Nat × Nat) × MatchBlock) i =>
      flmInnerRow acc.1 i blo bhi (b2jGet b (a.getD i "")) acc.2)
    ([], ⟨alo, blo, 0⟩)
  let best := extendLeft a b alo blo dp.2.i dp.2
  extendRight a b ahi bhi (ahi - (best.i + best.size)) best

/-- Queue worker for `get_matching_blocks`; the Python `list.pop()` makes the
queue a stack, modelled with the head as the top.  Fuel-bounded. -/
def matchingBlocksAux (a b : List String) :
    Nat → List (Nat × Nat × Nat × Nat) → List MatchBlock → List MatchBlock
  | 0, _, acc => acc
  | _ + 1, [], acc => acc
  | fuel + 1, (alo, ahi, blo, bhi) :: queue, acc =>
    let x := findLongestMatch a b alo ahi blo bhi
    if x.size ≠ 0 then
      let q1 := if alo < x.i ∧ blo < x.j then (alo, x.i, blo, x.j) :: queue else queue
      let q2 := if x.i + x.size < ahi ∧ x.j + x.size < bhi then
        (x.i + x.size, ahi, x.j + x.size, bhi) :: q1 else q1
      matchingBlocksAux a b fuel q2 (x :: acc)
    else matchingBlocksAux a b fuel queue acc

/-- Lexicographic order on matching blocks, as Python tuple `sort()`. -/
def mbLe (x y : MatchBlock) : Bool :=
  decide (x.i < y.i) || (decide (x.i = y.i) &&
    (decide (x.j < y.j) || (decide (x.j = y.j) && decide (x.size ≤ y.size))))

/-- Insertion into a `mbLe`-sorted list. -/
def mbInsert (x : MatchBlock) : List MatchBlock → List MatchBlock
  | [] => [x]
  | y :: ys => if mbLe x y then x :: y :: ys else y :: mbInsert x ys

/-- Insertion sort implementing `matching_blocks.sort()`. -/
def mbSort (l : List MatchBlock) : List MatchBlock :=
  l.foldr mbInsert []

/-- Adjacent-block merging pass of `get_matching_blocks`: collapses blocks
that abut in both sequences, then appends the `(la, lb, 0)` sentinel. -/
def mergeAdjacent (la lb : Nat) (blocks : List MatchBlock) : List MatchBlock :=
  let step := blocks.foldl
    (fun (acc : List MatchBlock × MatchBlock) x2 =>
      let x1 := acc.2
      if x1.i + x1.size = x2.i ∧ x1.j + x1.size = x2.j then
        (acc.1, ⟨x1.i, x1.j, x1.size + x2.size⟩)
      else
        ((if x1.size ≠ 0 then acc.1 ++ [x1] else acc.1), x2))
    ([], ⟨0, 0, 0⟩)
  (if step.2.size ≠ 0 then step.1 ++ [step.2] else step.1) ++ [⟨la, lb, 0⟩]

/-- The `SequenceMatcher.get_matching_blocks()`. -/
def getMatchingBlocks (a b : List String) : List MatchBlock :=
  let raw := matchingBlocksAux a b (2 * (a.length + b.length) + 4)
    [(0, a.length, 0, b.length)] []
  mergeAdjacent a.length b.length (mbSort raw)

/-- The `SequenceMatcher.get_opcodes()`. -/
def getOpcodes (a b : List String) : List Op :=
  let step := (getMatchingBlocks a b).foldl
    (fun (acc : List Op × Nat × Nat) blk =>
      let i := acc.2.1
      let j := acc.2.2
      let withTag :=
        if i < blk.i ∧ j < blk.j then acc.1 ++ [⟨"replace", i, blk.i, j, blk.j⟩]
        else if i < blk.i then acc.1 ++ [⟨"delete", i, blk.i, j, blk.j⟩]
        else if j < blk.j then acc.1 ++ [⟨"insert", i, blk.i, j, blk.j⟩]
        else acc.1
      let i2 := blk.i + blk.size
      let j2 := blk.j + blk.size
      let withEq := if blk.size ≠ 0 then withTag ++ [⟨"equal", blk.i, i2, blk.j, j2⟩] else withTag
      (withEq, i2, j2))
    ([], 0, 0)
  step.1

/-- Replaces the last element of a list by `f` applied to it. -/
def modifyLastBy (f : Op → Op) : List Op → List Op
  | [] => []
  | [x] => [f x]
  | x :: xs => x :: modifyLastBy f xs

/-- The `SequenceMatcher.get_grouped_opcodes(n=3)` (`nn = 6`). -/
def groupedOpcodes (a b : List String) : List (List Op) :=
  let codes0 := getOpcodes a b
  let codes1 := if codes0 = [] then [⟨"equal", 0, 1, 0, 1⟩] else codes0
  let codes2 := match codes1 with
    | c :: rest =>
      (if c.tag = "equal" then Op.mk c.tag (max c.i1 (c.i2 - 3)) c.i2 (max c.j1 (c.j2 - 3)) c.j2
       else c) :: rest
    | [] => codes1
  let codes3 := modifyLastBy
    (fun c => if c.tag = "equal" then ⟨c.tag, c.i1, min c.i2 (c.i1 + 3), c.j1, min c.j2 (c.j1 + 3)⟩
      else c) codes2
  let step := codes3.foldl
    (fun (acc : List (List Op) × List Op) c =>
      if c.tag = "equal" ∧ 6 < c.i2 - c.i1 then
        (acc.1 ++ [acc.2 ++ [⟨c.tag, c.i1, min c.i2 (c.i1 + 3), c.j1, min c.j2 (c.j1 + 3)⟩]],
         [⟨c.tag, max c.i1 (c.i2 - 3), c.i2, max c.j1 (c.j2 - 3), c.j2⟩])
      else (acc.1, acc.2 ++ [c]))
    ([], [])
  let groups := step.1
  let group := step.2
  if group ≠ [] ∧ ¬(group.length = 1 ∧ (group.headD ⟨"", 0, 0, 0, 0⟩).tag = "equal") then
    groups ++ [group]
  else groups

/-- The `difflib._format_range_unified`. -/
def formatRangeUnified (start stop : Nat) : String :=
  let beginning := start + 1
  let length := stop - start
  if length = 1 then toString beginning
  else toString (if length = 0 then beginning - 1 else beginning) ++ "," ++ toString length

/-- Python slice `a[i:j]` for `i <= j` within range. -/
def pySlice (a : List String) (i j : Nat) : List String :=
  (a.drop i).take (j - i)

/-- The `difflib.unified_diff(a, b, fromfile, tofile, lineterm="")`, returned as
the list of diff lines.  The `---`/`+++` headers are emitted once, before the
first group. -/
def unifiedDiff (a b : List String) (fromfile tofile : String) : List String :=
  let groups := groupedOpcodes a b
  match groups with
  | [] => []
  | _ =>
    ("--- " ++ fromfile) :: ("+++ " ++ tofile) ::
      (groups.map (fun group =>
        let first := group.headD ⟨"equal", 0, 0, 0, 0⟩
        let last := group.getLastD ⟨"equal", 0, 0, 0, 0⟩
        let hunk := "@@ -" ++ formatRangeUnified first.i1 last.i2 ++ " +" ++
          formatRangeUnified first.j1 last.j2 ++ " @@"
        hunk :: (group.map (fun c =>
          if c.tag = "equal" then (pySlice a c.i1 c.i2).map (fun l => " " ++ l)
          else
            (if c.tag = "replace" ∨ c.tag = "delete" then
              (pySlice a c.i1 c.i2).map (fun l => "-" ++ l) else []) ++
            (if c.tag = "replace" ∨ c.tag = "insert" then
              (pySlice b c.j1 c.j2).map (fun l => "+" ++ l) else []))).flatten)).flatten

/-- The `FileDiff` record of `diff_agent.py`. -/
structure FileDiff where
  path : String
  diff_text : String
  change_summary : List String
deriving Repr, DecidableEq

/-- The `DiffResult` record of `diff_agent.py`. -/
structure DiffResult where
  files_changed : Nat
  lines_added : Nat
  lines_removed : Nat
  file_diffs : List FileDiff
  summary : String
deriving Repr, DecidableEq

/-- Python `str.startswith`, over the character lists (the library
`String.startsWith` is equivalent but does not reduce in the kernel). -/
def strStartsWith (s pre : String) : Bool :=
  pre.data.isPrefixOf s.data

/-- The `added = sum(1 for line in diff if line.startswith('+') and not
line.startswith('+++'))` from `generate_diff`. -/
def countAdded (diff : List String) : Nat :=
  (diff.filter (fun l => strStartsWith l ("+") && !(strStartsWith l ("+++")))).length

/-- The `removed = sum(1 for line in diff if line.startswith('-') and not
line.startswith('---'))` from `generate_diff`. -/
def countRemoved (diff : List String) : Nat :=
  (diff.filter (fun l => strStartsWith l ("-") && !(strStartsWith l ("---")))).length

/-- The per-path body of the `generate_diff` loop, keeping the local `diff`
line list and the added/removed counts alongside the built `FileDiff`. -/
structure PathDiff where
  fd : FileDiff
  diffLines : List String
  added : Nat
  removed : Nat
deriving Repr, DecidableEq

/-- A snapshot is a Python dict `path -> content`, modelled as an association
list with unique keys; `dictGet m k` is `m.get(k, "")`. -/
def dictGet (m : List (String × String)) (k : String) : String :=
  (m.lookup k).getD ""

/-- Assembles the per-path data recorded by the loop body: the `FileDiff`
(joined diff text and summary) plus the diff lines and the two counts. -/
def mkPathDiff (path : String) (diff summary : List String) : PathDiff :=
  ⟨⟨path, String.intercalate ("\n") diff, summary⟩, diff, countAdded diff, countRemoved diff⟩

/-- Loop body of `DiffAgent.generate_diff` for one path: `None` when the two
line sequences are equal (no `FileDiff` is produced), otherwise the produced
`FileDiff` together with its diff lines and added/removed counts. -/
def processPath (base_files modified_files : List (String × String)) (path : String) :
    Option PathDiff :=
  let original := splitlines (dictGet base_files path)
  let modified := splitlines (dictGet modified_files path)
  if original = modified then none
  else
    let diff := unifiedDiff original modified ("base/" ++ path) ("mod/" ++ path)
    let summary :=
      if original = [] then ["File Added"]
      else if modified = [] then ["File Removed"]
      else ["Lines Changed: " ++ toString diff.length]
    some (mkPathDiff path diff summary)

/-- The `all_files = set(base_files.keys()) | set(modified_files.keys())`,
enumerated in first-occurrence order (Python set iteration order is
arbitrary; every property proved below is independent of this order). -/
def allKeys (base_files modified_files : List (String × String)) : List String :=
  ((base_files.map Prod.fst) ++ (modified_files.map Prod.fst)).foldl
    (fun acc k => if k ∈ acc then acc else acc ++ [k]) []

/-- Embedding of `DiffAgent.generate_diff` (diff_agent.py lines 29-58): the
loop over the key union accumulates `file_diffs` and the three counters; the
accumulation is expressed with `filterMap` over the processed paths. -/
def generate_diff (base_files modified_files : List (String × String)) : DiffResult :=
  let entries := (allKeys base_files modified_files).filterMap (processPath base_files modified_files)
  let files_changed := entries.length
  let lines_added := (entries.map PathDiff.added).sum
  let lines_removed := (entries.map PathDiff.removed).sum
  { files_changed := files_changed
    lines_added := lines_added
    lines_removed := lines_removed
    file_diffs := entries.map PathDiff.fd
    summary := toString files_changed ++ " files changed, " ++ toString lines_added ++
      " lines added, " ++ toString lines_removed ++ " lines removed" }

/- ============================================================ -/
/- Section 3: Lightning AI client                                -/
/- src/repofactor/application/services/lightning_ai_service.py   -/
/- ============================================================ -/

/-- Quota-relevant state of a `LightningAIClient` instance:
`self.monthly_quota = 20` and `self.calls_made = 0` at construction. -/
structure ClientState where
  monthly_quota : Nat
  calls_made : Nat
deriving Repr, DecidableEq

/-- The freshly constructed client: `monthly_quota = 20`, `calls_made = 0`. -/
def freshClient : ClientState :=
  { monthly_quota := 20, calls_made := 0 }

/-- The `LightningAIClient.get_remaining_quota`: `monthly_quota - calls_made`
(Python integer subtraction, hence `Int`). -/
def get_remaining_quota (s : ClientState) : Int :=
  (s.monthly_quota : Int) - (s.calls_made : Int)

/-- Failure of one body execution of `generate`: the quota `RuntimeError`
raised before any network call, or the `RuntimeError` re-raised from the
`llm.chat` exception handler. -/
inductive GenError where
  | quotaExceeded
  | requestFailed (msg : String)
deriving Repr, DecidableEq

/-- The `LightningResponse` dataclass; `usage` is its `total_tokens` value
(`len(response_text.split())`). -/
structure LightningResponse where
  text : String
  model : String
  usage : Nat
  finish_reason : String
deriving Repr, DecidableEq

/-- Python whitespace test used by `str.split()` (the characters relevant to
word counting). -/
def isPySpace (c : Char) : Bool :=
  let n := c.toNat
  n = 32 || n = 9 || n = 10 || n = 13 || n = 11 || n = 12

/-- Worker for `pyWords`: `cur` is the current word, reversed. -/
def pyWordsAux : List Char → List Char → List String
  | [], [] => []
  | [], cur => [String.mk cur.reverse]
  | c :: rest, cur =>
    if isPySpace c then
      (if cur = [] then pyWordsAux rest [] else String.mk cur.reverse :: pyWordsAux rest [])
    else pyWordsAux rest (c :: cur)

/-- The `str.split()` with no argument: split on whitespace runs, no empties. -/
def pyWords (s : String) : List String :=
  pyWordsAux s.data []

/-- Outcome of one execution of the body of `generate` (one tenacity
attempt): the result, the client state afterwards, and how many `llm.chat`
network calls were made (0 or 1). -/
structure GenOutcome where
  result : Except GenError LightningResponse
  state : ClientState
  chatCalls : Nat
deriving Repr

/-- One execution of the body of `LightningAIClient.generate` (lines
79-139): the quota check runs first and raises before any network call;
otherwise `llm.chat` runs (modelled by the `chat` outcome: `.ok text` or a
raised exception message) and on success `calls_made` is incremented and a
`LightningResponse` built.  There is no check on empty or whitespace-only
response text. -/
def generate_attempt (s : ClientState) (modelName : String)
    (chat : Except String String) : GenOutcome :=
  if s.monthly_quota ≤ s.calls_made then
    { result := .error .quotaExceeded, state := s, chatCalls := 0 }
  else
    match chat with
    | .ok text =>
      let resp : LightningResponse :=
        { text := text, model := modelName,
          usage := (pyWords text).length, finish_reason := "stop" }
      { result := .ok resp,
        state := { s with calls_made := s.calls_made + 1 },
        chatCalls := 1 }
    | .error e =>
      { result := .error (.requestFailed ("Lightning AI request failed: " ++ e))
        state := s
        chatCalls := 1 }

/-- What a call of the decorated `generate` finally produces: a response, or
`tenacity.RetryError` wrapping the last attempt failure (the decorator has
`stop=stop_after_attempt(3)` and no `reraise`). -/
inductive RetryOutcome where
  | ok (r : LightningResponse)
  | retryError (e : GenError)
deriving Repr, DecidableEq

/-- The `RetryOutcome.isOk`. -/
def RetryOutcome.isOk : RetryOutcome → Bool
  | .ok _ => true
  | .retryError _ => false

/-- Result of the decorated `generate`: final outcome, client state,
number of attempts executed, number of `llm.chat` network calls. -/
structure RetryResult where
  outcome : RetryOutcome
  state : ClientState
  attempts : Nat
  chatCalls : Nat
deriving Repr

/-- The tenacity retry loop around the body of `generate`: runs the body; on
success returns; on exception retries while attempts remain (3 total),
re-raising as `RetryError` when they are exhausted.  `r` counts the attempts
still allowed including the current one; the `0` case is unreachable from
`generate` below, which starts at 3.  The transport outcome of the `idx`-th
attempt is `oracle idx`. -/
def retryLoop (oracle : Nat → Except String String) (modelName : String) :
    Nat → Nat → ClientState → Nat → RetryResult
  | 0, idx, s, chatAcc =>
    { outcome := .retryError (.requestFailed ""), state := s,
      attempts := idx, chatCalls := chatAcc }
  | r + 1, idx, s, chatAcc =>
    let out := generate_attempt s modelName (oracle idx)
    let acc := chatAcc + out.chatCalls
    match out.result with
    | .ok resp =>
      { outcome := .ok resp, state := out.state, attempts := idx + 1, chatCalls := acc }
    | .error e =>
      if r = 0 then
        { outcome := .retryError e, state := out.state, attempts := idx + 1, chatCalls := acc }
      else retryLoop oracle modelName r (idx + 1) out.state acc

/-- The decorated `LightningAIClient.generate` as observed by callers:
`@retry(stop=stop_after_attempt(3), wait=wait_exponential(...))` around the
body.  Waiting times are irrelevant to the proved properties and are not
modelled. -/
def generate (s : ClientState) (modelName : String)
    (oracle : Nat → Except String String) : RetryResult :=
  retryLoop oracle modelName 3 0 s 0

/-- A sequence of decorated `generate` calls against one client instance,
each with its own transport behaviour; returns the final client state. -/
def runGenerates (s : ClientState) (modelName : String) :
    List (Nat → Except String String) → ClientState
  | [] => s
  | oracle :: rest => runGenerates (generate s modelName oracle).state modelName rest

/-- The default model string of the client. -/
def defaultModel : String :=
  "google/gemini-2.5-flash-lite-preview-06-17"

/- ============================================================ -/
/- Section 4: structured-output parser                           -/
/- lightning_ai_service.py  CodeAnalysisAgent._parse_analysis /  -/
/-   _validate_and_fill_defaults                                 -/
/- analysis_agent.py  CodeAnalysisAgent._parse_llm_response /    -/
/-   _fill_defaults                                              -/
/- ============================================================ -/

/-- A Python value decoded by `json.loads`. -/
inductive JVal where
  | null
  | bool (b : Bool)
  | num (n : Int)
  | str (s : String)
  | arr (elems : List JVal)
  | obj (fields : List (String × JVal))

/-- The opening-brace and closing-brace characters, by code point. -/
def lbraceChar : Char := Char.ofNat 123

/-- See `lbraceChar`. -/
def rbraceChar : Char := Char.ofNat 125

/-- JSON whitespace characters accepted by `json.loads`. -/
def isJsonWs (c : Char) : Bool :=
  c = ' ' || c = '\t' || c = '\n' || c = '\r'

/-- Drop leading JSON whitespace. -/
def skipWs (cs : List Char) : List Char :=
  cs.dropWhile isJsonWs

/-- String-literal body parser for the JSON model: consumes characters up to
the closing quote, handling the common escapes.  `\u` escapes are outside the
modelled subset (the concrete inputs below contain none). -/
def parseStringLit : List Char → List Char → Option (String × List Char)
  | [], _ => none
  | '"' :: rest, acc => some (String.mk acc.reverse, rest)
  | '\\' :: e :: rest, acc =>
    if e = '"' then parseStringLit rest ('"' :: acc)
    else if e = '\\' then parseStringLit rest ('\\' :: acc)
    else if e = '/' then parseStringLit rest ('/' :: acc)
    else if e = 'n' then parseStringLit rest ('\n' :: acc)
    else if e = 't' then parseStringLit rest ('\t' :: acc)
    else if e = 'r' then parseStringLit rest ('\r' :: acc)
    else none
  | c :: rest, acc => parseStringLit rest (c :: acc)

/-- Digit-run parser: returns the value and the remaining input; `none` when
no digit is present. -/
def parseDigits : List Char → Nat → Nat → Option (Nat × List Char)
  | [], 0, _ => none
  | [], _, acc => some (acc, [])
  | c :: rest, seen, acc =>
    if c.isDigit then parseDigits rest (seen + 1) (acc * 10 + (c.toNat - 48))
    else if seen = 0 then none else some (acc, c :: rest)

mutual

/-- Recursive-descent model of `json.loads` over the subset produced by the
grammar: objects, arrays, strings, integers, `true`/`false`/`null`.  Floats,
exponents and `\u` escapes are outside the subset (parsing fails, which the
proofs never rely on).  Fuel-bounded. -/
def parseJVal : Nat → List Char → Option (JVal × List Char)
  | 0, _ => none
  | fuel + 1, cs =>
    match skipWs cs with
    | 'n' :: 'u' :: 'l' :: 'l' :: rest => some (.null, rest)
    | 't' :: 'r' :: 'u' :: 'e' :: rest => some (.bool true, rest)
    | 'f' :: 'a' :: 'l' :: 's' :: 'e' :: rest => some (.bool false, rest)
    | '"' :: rest => (parseStringLit rest []).map (fun p => (.str p.1, p.2))
    | '-' :: rest => (parseDigits rest 0 0).map (fun p => (.num (-(p.1 : Int)), p.2))
    | '[' :: rest =>
      (match skipWs rest with
       | ']' :: rest2 => some (.arr [], rest2)
       | _ => (parseJElems fuel rest []).map (fun p => (.arr p.1, p.2)))
    | c :: rest =>
      if c = lbraceChar then
        (match skipWs rest with
         | c2 :: rest2 =>
           if c2 = rbraceChar then some (.obj [], rest2)
           else (parseJFields fuel (c2 :: rest2) []).map (fun p => (.obj p.1, p.2))
         | [] => none)
      else if c.isDigit then
        (parseDigits (c :: rest) 0 0).map (fun p => (.num (p.1 : Int), p.2))
      else none
    | [] => none

/-- Comma-separated array elements, after `[`. -/
def parseJElems (fuel : Nat) : List Char → List JVal → Option (List JVal × List Char) :=
  fun cs acc =>
    match fuel with
    | 0 => none
    | f + 1 =>
      match parseJVal f cs with
      | none => none
      | some (v, rest) =>
        match skipWs rest with
        | ',' :: rest2 => parseJElems f rest2 (v :: acc)
        | ']' :: rest2 => some ((v :: acc).reverse, rest2)
        | _ => none

/-- Comma-separated object members, after the opening brace. -/
def parseJFields (fuel : Nat) : List Char → List (String × JVal) →
    Option (List (String × JVal) × List Char) :=
  fun cs acc =>
    match fuel with
    | 0 => none
    | f + 1 =>
      match skipWs cs with
      | '"' :: rest =>
        match parseStringLit rest [] with
        | none => none
        | some (key, rest2) =>
          match skipWs rest2 with
          | ':' :: rest3 =>
            match parseJVal f rest3 with
            | none => none
            | some (v, rest4) =>
              match skipWs rest4 with
              | ',' :: rest5 => parseJFields f rest5 ((key, v) :: acc)
              | c :: rest5 =>
                if c = rbraceChar then some (((key, v) :: acc).reverse, rest5)
                else none
              | [] => none
          | _ => none
      | _ => none
end

/-- The `json.loads` on a whole string: a value followed only by whitespace. -/
def json_loads (s : String) : Option JVal :=
  match parseJVal (s.length + 1) s.data with
  | some (v, rest) => if skipWs rest = [] then some v else none
  | none => none

/-- Python exception classes raised by the validation pass. -/
inductive PyErr where
  | attributeError
  | valueError
  | typeError
deriving Repr, DecidableEq

/-- The `data.get(key, default)`: on a dict, lookup with default; on any
non-dict value decoded from JSON (int, list, str, ...), accessing the `get`
attribute raises `AttributeError`. -/
def pyGet (v : JVal) (key : String) (default : JVal) : Except PyErr JVal :=
  match v with
  | .obj fields => .ok ((fields.lookup key).getD default)
  | _ => .error .attributeError

/-- The `isinstance(v, list)`. -/
def pyIsList : JVal → Bool
  | .arr _ => true
  | _ => false

/-- The `isinstance(v, dict)`. -/
def pyIsDict : JVal → Bool
  | .obj _ => true
  | _ => false

/-- The `int(str)` body: strip whitespace, optional sign, a non-empty digit run
(underscore grouping is outside the modelled subset). -/
def pyIntOfString (s : String) : Option Int :=
  let cs := (s.data.dropWhile isPySpace).reverse.dropWhile isPySpace |>.reverse
  let (sign, digits) :=
    match cs with
    | '-' :: rest => ((-1 : Int), rest)
    | '+' :: rest => ((1 : Int), rest)
    | _ => ((1 : Int), cs)
  if digits ≠ [] ∧ digits.all Char.isDigit then
    some (sign * (digits.foldl (fun acc c => acc * 10 + (c.toNat - 48)) 0 : Nat))
  else none

/-- The `int(v)` on a JSON-decoded value: ints pass through, booleans coerce to
0/1, numeric strings parse (else `ValueError`), and `None`/lists/dicts raise
`TypeError`. -/
def pyInt : JVal → Except PyErr Int
  | .num n => .ok n
  | .bool b => .ok (if b then 1 else 0)
  | .str s =>
    match pyIntOfString s with
    | some n => .ok n
    | none => .error .valueError
  | _ => .error .typeError

mutual

/-- Python `repr` of a JSON-decoded value (used by `str` on non-strings). -/
def pyRepr : JVal → String
  | .null => "None"
  | .bool b => if b then "True" else "False"
  | .num n => toString n
  | .str s => "\x27" ++ s ++ "\x27"
  | .arr xs => "[" ++ pyReprList xs ++ "]"
  | .obj fs => "\x7b" ++ pyReprFields fs ++ "\x7d"

/-- Comma-joined `repr`s of list elements. -/
def pyReprList : List JVal → String
  | [] => ""
  | [x] => pyRepr x
  | x :: xs => pyRepr x ++ ", " ++ pyReprList xs

/-- Comma-joined `repr`s of dict items. -/
def pyReprFields : List (String × JVal) → String
  | [] => ""
  | [(k, v)] => "\x27" ++ k ++ "\x27: " ++ pyRepr v
  | (k, v) :: fs => "\x27" ++ k ++ "\x27: " ++ pyRepr v ++ ", " ++ pyReprFields fs

end

/-- Python `str(v)`: identity on strings, `repr` otherwise. -/
def pyStr (v : JVal) : String :=
  match v with
  | .str s => s
  | _ => pyRepr v

/-- One entry appended to `result["affected_files"]` by the validation pass:
`path` and `reason` are `str(...)` results, `confidence` an `int(...)`
result, `changes` the (version-dependent) changes value. -/
structure AffectedEntry where
  path : String
  reason : String
  confidence : Int
  changes : JVal

/-- The mapping both validation passes return: the five required keys.
`main_modules`, `dependencies`, `risks` and `implementation_steps` hold the
raw list elements; `affected_files` holds rebuilt entries. -/
structure AnalysisDict where
  main_modules : List JVal
  dependencies : List JVal
  affected_files : List AffectedEntry
  risks : List JVal
  implementation_steps : List JVal

/-- The list coercion both passes apply to the four plain-list fields:
keep a list, replace any non-list by `[]`. -/
def ensureList : JVal → List JVal
  | .arr xs => xs
  | _ => []

/-- Embedding of `CodeAnalysisAgent._validate_and_fill_defaults`
(lightning_ai_service.py lines 351-406).  Each `data.get` can raise
`AttributeError` (non-dict `data`), and `int(file_info.get("confidence", 50))`
can raise `ValueError`/`TypeError`; the `Except` monad threads the first
raised exception, exactly as Python control flow does. -/
def validate_and_fill_defaults (data : JVal) : Except PyErr AnalysisDict := do
  let mm ← pyGet data "main_modules" (.arr [])
  let deps ← pyGet data "dependencies" (.arr [])
  let risks ← pyGet data "risks" (.arr [])
  let steps ← pyGet data "implementation_steps" (.arr [])
  let rawFilesV ← pyGet data "affected_files" (.arr [])
  let rawFiles := if pyIsList rawFilesV then ensureList rawFilesV else []
  let entries ← rawFiles.foldlM
    (fun (acc : List AffectedEntry) fileInfo => do
      match fileInfo with
      | .obj fields =>
        if (fields.lookup "path").isSome then do
          let changes0 := (fields.lookup "changes").getD (.arr [])
          let changes := if pyIsList changes0 then changes0 else .arr []
          let conf ← pyInt ((fields.lookup "confidence").getD (.num 50))
          pure (acc ++ [{ path := pyStr ((fields.lookup "path").getD (.str "")),
                          reason := pyStr ((fields.lookup "reason").getD (.str "")),
                          confidence := conf,
                          changes := changes }])
        else pure acc
      | _ => pure acc)
    []
  pure { main_modules := ensureList mm, dependencies := ensureList deps,
         affected_files := entries, risks := ensureList risks,
         implementation_steps := ensureList steps }

/-- Embedding of `CodeAnalysisAgent._fill_defaults` (analysis_agent.py lines
302-330).  Differs from `validate_and_fill_defaults` only in keeping the raw
`changes` value without a list check. -/
def fill_defaults (data : JVal) : Except PyErr AnalysisDict := do
  let mm ← pyGet data "main_modules" (.arr [])
  let deps ← pyGet data "dependencies" (.arr [])
  let risks ← pyGet data "risks" (.arr [])
  let steps ← pyGet data "implementation_steps" (.arr [])
  let rawFilesV ← pyGet data "affected_files" (.arr [])
  let rawFiles := if pyIsList rawFilesV then ensureList rawFilesV else []
  let entries ← rawFiles.foldlM
    (fun (acc : List AffectedEntry) fileInfo => do
      match fileInfo with
      | .obj fields =>
        if (fields.lookup "path").isSome then do
          let conf ← pyInt ((fields.lookup "confidence").getD (.num 50))
          pure (acc ++ [{ path := pyStr ((fields.lookup "path").getD (.str "")),
                          reason := pyStr ((fields.lookup "reason").getD (.str "")),
                          confidence := conf,
                          changes := (fields.lookup "changes").getD (.arr []) }])
        else pure acc
      | _ => pure acc)
    []
  pure { main_modules := ensureList mm, dependencies := ensureList deps,
         affected_files := entries, risks := ensureList risks,
         implementation_steps := ensureList steps }

/-- Python `str.strip()` with no argument. -/
def pyStrip (s : String) : String :=
  String.mk ((s.data.dropWhile isPySpace).reverse.dropWhile isPySpace |>.reverse)

/-- The `default_result` of `_parse_analysis` (lightning_ai_service.py). -/
def lightningDefaultResult : AnalysisDict :=
  { main_modules := [], dependencies := [], affected_files := [],
    risks := [.str "Failed to parse LLM response - please try again"],
    implementation_steps := [] }

/-- The `default` structure of `_parse_llm_response` (analysis_agent.py). -/
def analysisDefaultResult : AnalysisDict :=
  { main_modules := [], dependencies := [], affected_files := [],
    risks := [.str "Failed to parse LLM response"],
    implementation_steps := [] }

/-- Partial model of `CodeAnalysisAgent._parse_analysis`
(lightning_ai_service.py lines 276-349), covering every input on which the
function returns before its fallback strategies: the empty/whitespace early
return, and strategy 1 (`json.loads(response_text.strip())` succeeds, only
`json.JSONDecodeError` is caught, so any exception raised by
`_validate_and_fill_defaults` propagates to the caller).  `none` means the
input falls through to strategies 2-4 (markdown-block, brace-scan, manual
extraction), which this model leaves undecided. -/
def parse_analysis_direct (s : String) : Option (Except PyErr AnalysisDict) :=
  if pyStrip s = "" then some (.ok lightningDefaultResult)
  else
    match json_loads (pyStrip s) with
    | some v => some (validate_and_fill_defaults v)
    | none => none

/-- Partial model of `CodeAnalysisAgent._parse_llm_response`
(analysis_agent.py lines 238-300), on the same footing as
`parse_analysis_direct`: empty early return and strategy 1, whose
`_fill_defaults` exceptions propagate. -/
def parse_llm_response_direct (s : String) : Option (Except PyErr AnalysisDict) :=
  if pyStrip s = "" then some (.ok analysisDefaultResult)
  else
    match json_loads (pyStrip s) with
    | some v => some (fill_defaults v)
    | none => none

/- ============================================================ -/
/- Section 5: implementation agent                               -/
/- src/repofactor/application/agent_service/implementation_agent.py -/
/- ============================================================ -/

/-- The `ModifiedFile` dataclass (integration_models.py); the agent always fills
`backup_path` with the `_backup_file` string result. -/
structure ModifiedFile where
  path : String
  original_content : String
  modified_content : String
  backup_path : String
  changes_made : List String
deriving Repr, DecidableEq

/-- The `Error` dataclass (integration_models.py). -/
structure ErrorRec where
  message : String
  file_path : Option String := none
  line_number : Option Nat := none
deriving Repr, DecidableEq

/-- The `ImplementationResult` dataclass (integration_models.py). -/
structure ImplementationResult where
  success : Bool
  modified_files : List ModifiedFile
  errors : List ErrorRec
  execution_logs : List String
deriving Repr, DecidableEq

/-- The per-file prompt of `implement_changes`. -/
def buildPrompt (instructions original : String) : String :=
  "Modify this code according to: " ++ instructions ++ "\n\nCode:\n" ++ original

/-- The `Error` recorded for a file whose processing raised: message
`Error processing file '<path>': <str(e)>`, tied to the file path. -/
def fileError (path e : String) : ErrorRec :=
  { message := "Error processing file \x27" ++ path ++ "\x27: " ++ e,
    file_path := some path, line_number := none }

/-- The no-op log line of `implement_changes`. -/
def noChangeLog (path : String) : String :=
  "No changes needed for file \x27" ++ path ++ "\x27."

/-- The success log line of `implement_changes`. -/
def modifiedLog (path : String) : String :=
  "File \x27" ++ path ++ "\x27 modified successfully."

/-- The loop of `ImplementationAgent.implement_changes` (lines 47-72):
processes files in input order; `gen` models `self.ai_client.generate_code`
(`.error e` is a raised exception with text `str(e)`), `bk` models
`_backup_file` (which catches its own exceptions and returns a path or "").
Returns `(modified_files, errors, execution_logs, success_flag)`; the flag is
`False` as soon as any exception was recorded.  The local `current_content`
copy of the source is write-only and not modelled. -/
def implLoop (gen : String → Except String String) (bk : String → String → String)
    (instructions : String) : List (String × String) →
    List ModifiedFile × List ErrorRec × List String × Bool
  | [] => ([], [], [], true)
  | (path, original) :: rest =>
    let r := implLoop gen bk instructions rest
    match gen (buildPrompt instructions original) with
    | .ok modified =>
      if modified ≠ "" ∧ modified ≠ original then
        (ModifiedFile.mk path original modified (bk path original)
            ["Modified according to instructions."] :: r.1,
         r.2.1, modifiedLog path :: r.2.2.1, r.2.2.2)
      else
        (r.1, r.2.1, noChangeLog path :: r.2.2.1, r.2.2.2)
    | .error e =>
      (r.1, fileError path e :: r.2.1, r.2.2.1, false)

/-- Embedding of `ImplementationAgent.implement_changes` (lines 28-79):
runs the loop and assembles the result with
`success = success and len(errors) == 0`. -/
def implement_changes (gen : String → Except String String) (bk : String → String → String)
    (repo_content : List (String × String)) (instructions : String) : ImplementationResult :=
  let r := implLoop gen bk instructions repo_content
  { success := r.2.2.2 && r.2.1.isEmpty,
    modified_files := r.1,
    errors := r.2.1,
    execution_logs := r.2.2.1 }

/- ============================================================ -/
/- Section 6: orchestrator drive loop                            -/
/- src/repofactor/application/agent_service/multi_agent_orchestrator.py -/
/- ============================================================ -/

/-- The `MAX_RETRIES` constant of multi_agent_orchestrator.py. -/
def MAX_RETRIES : Nat := 3

/-- External behaviour a run interacts with: whether the `k`-th invocation
of the implementation agent succeeds (`result.success`), and the snippet the
`k`-th research call returns (`best_fix_snippet`). -/
structure OrchEnv where
  implSuccess : Nat → Bool
  researchSnippet : Nat → Option String

/-- The orchestrator-owned mutable state of `MultiAgentOrchestrator` that the
drive loop touches: the `OrchestratorState`, the shared `self.instructions`
string, and counters identifying the next implementation/research invocation
(indices into `OrchEnv`). -/
structure OrchFull where
  st : OrchestratorState
  instructions : String
  implCalls : Nat
  researchCalls : Nat
deriving Repr, DecidableEq

/-- Result of one `run_next_agent` call: the updated orchestrator, or the
`Exception(f"Unknown agent name: ...")` raised by the final `else`. -/
inductive StepResult where
  | ok (s : OrchFull)
  | unknownAgent (name : String)
deriving Repr, DecidableEq

/-- Embedding of `MultiAgentOrchestrator.run_next_agent` (lines 30-111):
dispatch on `orchestrator_decide_next`.  `implementation_agent` records
`result.success` from the environment and moves to
`implementation_complete`/`implementation_failed`; the failure branch sets
`last_error_message` to `"Unknown error"` because `ImplementationResult` has
no `error_message` attribute and `getattr` falls back to its default.
`research_agent` appends any found snippet to the shared instructions and
sets the stage to `"implementation_retry"`.  The `"implementation_retry"`
branch (retry-count bound, increment, re-run) is translated as written even
though `orchestrator_decide_next` can never return that name.  Stage names
with no branch (`summary_agent`, `testing_agent`, ...) raise. -/
def run_next_agent (env : OrchEnv) (os : OrchFull) : StepResult :=
  let agent := orchestrator_decide_next os.st
  if agent = "wait_for_approval" then .ok os
  else if agent = "analyzer_agent" then
    .ok { os with st := { os.st with current_stage := "analysis_complete" } }
  else if agent = "implementation_agent" then
    let ok := env.implSuccess os.implCalls
    let stFail := { os.st with current_stage := "implementation_failed", last_error_message := some ("Unknown error") }
    let st2 := if ok then { os.st with current_stage := "implementation_complete" } else stFail
    .ok { os with implCalls := os.implCalls + 1, st := st2 }
  else if agent = "research_agent" then
    let snippet := env.researchSnippet os.researchCalls
    let instr2 := match snippet with
      | some s => os.instructions ++ "\n\n# Suggested fix from research:\n" ++ s
      | none => os.instructions
    let os2 := { os with
      researchCalls := os.researchCalls + 1,
      instructions := instr2,
      st := { os.st with current_stage := "implementation_retry" } }
    .ok os2
  else if agent = "implementation_retry" then
    if MAX_RETRIES ≤ os.st.retry_count then
      .ok { os with st := { os.st with current_stage := "report_failure" } }
    else
      let st1 := { os.st with retry_count := os.st.retry_count + 1 }
      let ok := env.implSuccess os.implCalls
      let stFail := { st1 with current_stage := "implementation_failed", last_error_message := some ("Unknown error") }
      let st2 := if ok then { st1 with current_stage := "implementation_complete" } else stFail
      .ok { os with implCalls := os.implCalls + 1, st := st2 }
  else if agent = "diff_agent" then
    .ok { os with st := { os.st with current_stage := "diff_complete" } }
  else .unknownAgent agent

/-- How a drive-loop run ends: at one of the three terminal markers, with a
raised unknown-agent exception, or (for the fuel-bounded model only) fuel
exhaustion. -/
inductive RunOutcome where
  | stopped (terminal : String) (final : OrchFull) (trace : List String)
  | raised (agent : String) (final : OrchFull) (trace : List String)
  | outOfFuel
deriving Repr, DecidableEq

/-- Embedding of `MultiAgentOrchestrator.run_full_flow` (lines 113-126):
repeatedly compute the next agent name, stop on `finalize`/`error`/
`report_failure`, otherwise run it; `trace` records the executed agent names
(the keys written to `results`, in order). -/
def run_full_flow (env : OrchEnv) : Nat → OrchFull → List String → RunOutcome
  | 0, _, _ => .outOfFuel
  | fuel + 1, os, trace =>
    let next := orchestrator_decide_next os.st
    if next = "finalize" ∨ next = "error" ∨ next = "report_failure" then
      .stopped next os trace
    else
      match run_next_agent env os with
      | .ok os2 => run_full_flow env fuel os2 (trace ++ [next])
      | .unknownAgent a => .raised a os trace

/-- The post-approval initial orchestrator of `example_run`: stage `init`,
no retries yet, the example instructions, no agent invocations yet. -/
def initialOrch : OrchFull :=
  { st := { approval_received := true, current_stage := "init", retry_count := 0,
            last_error_message := none },
    instructions := "Modernize code output", implCalls := 0, researchCalls := 0 }

/-- An environment in which every implementation attempt fails and research
finds no snippet. -/
def alwaysFailEnv : OrchEnv :=
  { implSuccess := fun _ => false, researchSnippet := fun _ => none }

/-- The JSON text `{"affected_files": [{"path": "a.py", "confidence":
"high"}]}`: well-formed JSON whose one affected-file entry has a non-numeric
confidence string. -/
def badConfText : String :=
  "\x7b\"affected_files\": [\x7b\"path\": \"a.py\", \"confidence\": \"high\"\x7d]\x7d"

/-- The decoded value of `badConfText`. -/
def badConfJson : JVal :=
  .obj [("affected_files", .arr [.obj [("path", .str "a.py"), ("confidence", .str "high")]])]

/-- An affected-file entry with a non-empty path and no confidence key. -/
def missingConfJson : JVal :=
  .obj [("affected_files", .arr [.obj [("path", .str "a.py")]])]

/-- The `isOk` on `Except`. -/
def exceptIsOk {ε α : Type} : Except ε α → Bool
  | .ok _ => true
  | .error _ => false

/-- A client whose quota is exhausted: `calls_made = monthly_quota = 20`. -/
def exhaustedClient : ClientState :=
  { monthly_quota := 20, calls_made := 20 }

/-- The modified-file entry the loop records for `(p, o)` when generation
returns `m` that is non-empty and differs from `o`. -/
def mfEntry (bk : String → String → String) (p o m : String) : ModifiedFile :=
  ModifiedFile.mk p o m (bk p o) ["Modified according to instructions."]

/-- A generator that raises exactly on the prompt built for content
`bad`. -/
def genOneFail : String → Except String String := fun prompt =>
  if prompt = buildPrompt ("instr") ("bad") then .error ("boom") else .ok (prompt ++ "X")

/-- A backup oracle appending `.bak`. -/
def bkSuffix : String → String → String := fun p _ => p ++ ".bak"

/- ============================================================ -/
/- Theorems                                                      -/
/- ============================================================ -/

/-- C1: for every `OrchestratorState`, `orchestrator_decide_next` returns
exactly the documented next-agent name: `wait_for_approval` whenever approval
is missing, the stage-indexed agent names otherwise, `research_agent` /
`report_failure` on `implementation_failed` according to `retry_count < 3`,
and `error` on every unrecognized stage. -/
theorem C1_transition_table :
    ∀ (stage : String) (r : Nat) (e : Option String),
      (orchestrator_decide_next ⟨false, stage, r, e⟩ = "wait_for_approval") ∧
      (orchestrator_decide_next ⟨true, "init", r, e⟩ = "analyzer_agent") ∧
      (orchestrator_decide_next ⟨true, "analysis_complete", r, e⟩ = "implementation_agent") ∧
      (r < 3 → orchestrator_decide_next ⟨true, "implementation_failed", r, e⟩ = "research_agent") ∧
      (3 ≤ r → orchestrator_decide_next ⟨true, "implementation_failed", r, e⟩ = "report_failure") ∧
      (orchestrator_decide_next ⟨true, "implementation_complete", r, e⟩ = "diff_agent") ∧
      (orchestrator_decide_next ⟨true, "diff_complete", r, e⟩ = "summary_agent") ∧
      (orchestrator_decide_next ⟨true, "summary_complete", r, e⟩ = "testing_agent") ∧
      (orchestrator_decide_next ⟨true, "testing_complete", r, e⟩ = "finalize") ∧
      (stage ∉ ["init", "analysis_complete", "implementation_failed", "implementation_complete",
          "diff_complete", "summary_complete", "testing_complete"] →
        orchestrator_decide_next ⟨true, stage, r, e⟩ = "error") := by
  intro stage r e
  refine ⟨by simp [orchestrator_decide_next], by simp [orchestrator_decide_next],
    by simp [orchestrator_decide_next], ?_, ?_, by simp [orchestrator_decide_next],
    by simp [orchestrator_decide_next], by simp [orchestrator_decide_next],
    by simp [orchestrator_decide_next], ?_⟩
  · intro h
    simp [orchestrator_decide_next, h]
  · intro h
    simp [orchestrator_decide_next, Nat.not_lt.mpr h]
  · intro h
    simp only [List.mem_cons, List.mem_singleton, not_or] at h
    obtain ⟨h1, h2, h3, h4, h5, h6, h7, -⟩ := h
    simp [orchestrator_decide_next, h1, h2, h3, h4, h5, h6, h7]

/-- Witness for C1 at the documented concrete inputs. -/
theorem C1_transition_table_witness :
    orchestrator_decide_next ⟨true, "implementation_failed", 2, none⟩ = "research_agent" ∧
    orchestrator_decide_next ⟨true, "implementation_failed", 3, none⟩ = "report_failure" ∧
    orchestrator_decide_next ⟨true, "unknown", 0, none⟩ = "error" :=
  ⟨(C1_transition_table "implementation_failed" 2 none).2.2.2.1 (by decide),
   (C1_transition_table "implementation_failed" 3 none).2.2.2.2.1 (by decide),
   (C1_transition_table "unknown" 0 none).2.2.2.2.2.2.2.2.2 (by decide)⟩

/-- C2 (code bug): the parser is not total.  On the string `"3"` — valid
JSON whose top-level value is not an object — `json.loads` succeeds, the
validation pass calls `.get` on an `int` and an uncaught `AttributeError`
propagates out of both `_parse_analysis` and `_parse_llm_response`; on valid
JSON carrying a non-numeric confidence string, `int()` raises an uncaught
`ValueError`.  The claimed always-returns behaviour fails on these inputs. -/
theorem C2_parser_not_total :
    parse_analysis_direct ("3") = some (.error .attributeError) ∧
    parse_llm_response_direct ("3") = some (.error .attributeError) ∧
    parse_analysis_direct badConfText = some (.error .valueError) ∧
    parse_llm_response_direct badConfText = some (.error .valueError) :=
  ⟨rfl, rfl, rfl, rfl⟩

/-- C9 (code bug): in both validation passes the confidence of an entry with
a non-empty path defaults to 50 only when the key is absent; a malformed
(non-int-coercible) confidence value makes `int(...)` raise `ValueError`
instead of producing the default. -/
theorem C9_confidence_default_only_when_missing :
    Except.map (fun d => d.affected_files.map AffectedEntry.confidence)
        (validate_and_fill_defaults missingConfJson) = .ok [50] ∧
    Except.map (fun d => d.affected_files.map AffectedEntry.confidence)
        (fill_defaults missingConfJson) = .ok [50] ∧
    validate_and_fill_defaults badConfJson = .error .valueError ∧
    fill_defaults badConfJson = .error .valueError :=
  ⟨rfl, rfl, rfl, rfl⟩

/-- C3 (code bug): starting approved at `init` in an environment where every
implementation attempt fails, the drive loop runs the analyzer, one
implementation attempt and one research step, then halts at the terminal
marker `"error"` — not `"report_failure"` — with `retry_count` still 0 and
no retry attempted: `orchestrator_decide_next` has no case for the
`"implementation_retry"` stage that the research branch sets, so the
retry branch of `run_next_agent` is unreachable from the loop. -/
theorem C3_no_retry_loop_halts_at_error :
    run_full_flow alwaysFailEnv 10 initialOrch [] =
      .stopped "error"
        { st := { approval_received := true, current_stage := "implementation_retry",
                  retry_count := 0, last_error_message := some "Unknown error" },
          instructions := "Modernize code output", implCalls := 1, researchCalls := 1 }
        ["analyzer_agent", "implementation_agent", "research_agent"] := rfl

/-- C4 counterexample: with the quota exhausted, the decorated `generate`
does not raise the quota error exactly once — the `@retry` decorator wraps
the whole body, so the deterministic quota failure is raised on each of the
3 attempts and surfaces as a `RetryError` (it is true that no network call
happens).  And there is no empty/whitespace-response check at all: an empty
response text is returned as a successful `LightningResponse`, not reported
as a failure. -/
theorem C4_counterexample :
    (generate exhaustedClient defaultModel (fun _ => .ok ("hi"))).attempts = 3 ∧
    ¬((generate exhaustedClient defaultModel (fun _ => .ok ("hi"))).attempts = 1) ∧
    (generate exhaustedClient defaultModel (fun _ => .ok ("hi"))).chatCalls = 0 ∧
    (generate exhaustedClient defaultModel (fun _ => .ok ("hi"))).outcome
      = .retryError .quotaExceeded ∧
    (generate freshClient defaultModel (fun _ => .ok (""))).outcome
      = .ok { text := "", model := defaultModel, usage := 0, finish_reason := "stop" } ∧
    (generate freshClient defaultModel (fun _ => .ok (" \n "))).outcome
      = .ok { text := " \n ", model := defaultModel, usage := 0, finish_reason := "stop" } :=
  ⟨rfl, by decide, rfl, rfl, rfl, rfl⟩

/-- Attempt-level quota accounting: one body execution increments
`calls_made` exactly when it succeeds, and never touches `monthly_quota`. -/
theorem generate_attempt_calls (s : ClientState) (m : String) (chat : Except String String) :
    (generate_attempt s m chat).state.calls_made
      = s.calls_made + (if exceptIsOk (generate_attempt s m chat).result then 1 else 0) ∧
    (generate_attempt s m chat).state.monthly_quota = s.monthly_quota := by
  unfold generate_attempt
  split
  · simp [exceptIsOk]
  · cases chat <;> simp [exceptIsOk]

/-- The retry loop increments `calls_made` exactly when its final outcome is
a success, and preserves `monthly_quota`. -/
theorem retryLoop_calls (oracle : Nat → Except String String) (m : String) :
    ∀ (r idx : Nat) (s : ClientState) (acc : Nat),
      (retryLoop oracle m r idx s acc).state.calls_made
        = s.calls_made + (if (retryLoop oracle m r idx s acc).outcome.isOk then 1 else 0) ∧
      (retryLoop oracle m r idx s acc).state.monthly_quota = s.monthly_quota := by
  intro r
  induction r with
  | zero => intro idx s acc; simp [retryLoop, RetryOutcome.isOk]
  | succ r ih =>
    intro idx s acc
    rw [retryLoop]
    cases hres : (generate_attempt s m (oracle idx)).result with
    | ok resp =>
      have hA1 : (generate_attempt s m (oracle idx)).state.calls_made = s.calls_made + 1 := by
        have h := (generate_attempt_calls s m (oracle idx)).1
        rw [hres] at h
        simpa [exceptIsOk] using h
      simp only [hres, RetryOutcome.isOk]
      exact ⟨by simpa using hA1, (generate_attempt_calls s m (oracle idx)).2⟩
    | error e =>
      have hA1 : (generate_attempt s m (oracle idx)).state.calls_made = s.calls_made := by
        have h := (generate_attempt_calls s m (oracle idx)).1
        rw [hres] at h
        simpa [exceptIsOk] using h
      have hA2 := (generate_attempt_calls s m (oracle idx)).2
      by_cases hr : r = 0
      · subst hr
        simp only [hres, if_pos rfl, RetryOutcome.isOk]
        exact ⟨by simpa using hA1, hA2⟩
      · simp only [hres, if_neg hr]
        have hI := ih (idx + 1) (generate_attempt s m (oracle idx)).state
          (acc + (generate_attempt s m (oracle idx)).chatCalls)
        exact ⟨by rw [hI.1, hA1], by rw [hI.2, hA2]⟩

/-- Quota accounting for the decorated `generate`. -/
theorem generate_calls (s : ClientState) (m : String) (oracle : Nat → Except String String) :
    (generate s m oracle).state.calls_made
      = s.calls_made + (if (generate s m oracle).outcome.isOk then 1 else 0) ∧
    (generate s m oracle).state.monthly_quota = s.monthly_quota :=
  retryLoop_calls oracle m 3 0 s 0

/-- Monotonicity of `calls_made` across a sequence of `generate` calls. -/
theorem runGenerates_mono (m : String) :
    ∀ (l : List (Nat → Except String String)) (s : ClientState),
      s.calls_made ≤ (runGenerates s m l).calls_made := by
  intro l
  induction l with
  | nil => intro s; simp [runGenerates]
  | cons oracle rest ih =>
    intro s
    have h1 := (generate_calls s m oracle).1
    have h2 : s.calls_made ≤ (generate s m oracle).state.calls_made := by
      rw [h1]; exact Nat.le_add_right _ _
    calc s.calls_made ≤ (generate s m oracle).state.calls_made := h2
      _ ≤ _ := ih (generate s m oracle).state

/-- With the quota exhausted, every attempt of the retry loop fails at the
quota check before any network call, so the loop runs all its attempts and
ends in a `RetryError`, leaving the state untouched. -/
theorem retryLoop_quota_exhausted (oracle : Nat → Except String String) (m : String)
    (s : ClientState) (h : s.monthly_quota ≤ s.calls_made) :
    ∀ (r idx acc : Nat),
      retryLoop oracle m (r + 1) idx s acc =
        { outcome := .retryError .quotaExceeded, state := s,
          attempts := idx + r + 1, chatCalls := acc } := by
  have hq : ∀ c, generate_attempt s m c =
      { result := .error .quotaExceeded, state := s, chatCalls := 0 } := by
    intro c
    unfold generate_attempt
    rw [if_pos h]
  intro r
  induction r with
  | zero =>
    intro idx acc
    rw [retryLoop]
    simp [hq]
  | succ r ih =>
    intro idx acc
    rw [retryLoop]
    simp only [hq]
    rw [show acc + 0 = acc from rfl]
    rw [ih (idx + 1) acc]
    have harith : idx + 1 + r + 1 = idx + (r + 1) + 1 := by omega
    rw [harith]
    rw [if_neg (Nat.succ_ne_zero r)]

/-- C4 (amended): the quota check does run before any network call inside
each attempt — with the quota exhausted no `llm.chat` call ever happens —
but because the `@retry` decorator wraps the whole method the deterministic
quota failure is re-raised on all 3 attempts and surfaces as a `RetryError`,
not exactly once; and `generate` has no empty/whitespace-response check at
all: an empty response text completes the call successfully on the first
attempt and increments `calls_made`. -/
theorem C4_quota_retried_and_no_empty_check :
    ∀ (s : ClientState) (oracle : Nat → Except String String),
      (s.monthly_quota ≤ s.calls_made →
        generate s defaultModel oracle =
          { outcome := .retryError .quotaExceeded, state := s, attempts := 3, chatCalls := 0 }) ∧
      (s.calls_made < s.monthly_quota → oracle 0 = .ok ("") →
        (generate s defaultModel oracle).outcome
          = .ok { text := "", model := defaultModel, usage := 0, finish_reason := "stop" } ∧
        (generate s defaultModel oracle).attempts = 1 ∧
        (generate s defaultModel oracle).state.calls_made = s.calls_made + 1) := by
  intro s oracle
  constructor
  · intro h
    exact retryLoop_quota_exhausted oracle defaultModel s h 2 0 0
  · intro h h2
    have hatt : generate_attempt s defaultModel (oracle 0) =
        { result := .ok { text := "", model := defaultModel, usage := 0, finish_reason := "stop" },
          state := { s with calls_made := s.calls_made + 1 }, chatCalls := 1 } := by
      rw [h2]
      unfold generate_attempt
      rw [if_neg (Nat.not_le.mpr h)]
      rfl
    have hg : generate s defaultModel oracle =
        { outcome := .ok { text := "", model := defaultModel, usage := 0, finish_reason := "stop" },
          state := { s with calls_made := s.calls_made + 1 }, attempts := 1, chatCalls := 1 } := by
      show retryLoop oracle defaultModel (2 + 1) 0 s 0 = _
      rw [retryLoop, hatt]
      rfl
    rw [hg]
    exact ⟨rfl, rfl, rfl⟩

/-- Witness for C4 (amended) at concrete inputs. -/
theorem C4_quota_retried_witness :
    generate exhaustedClient defaultModel (fun _ => .ok ("x"))
      = { outcome := .retryError .quotaExceeded, state := exhaustedClient,
          attempts := 3, chatCalls := 0 } ∧
    ((generate freshClient defaultModel (fun _ => .ok (""))).outcome
        = .ok { text := "", model := defaultModel, usage := 0, finish_reason := "stop" } ∧
      (generate freshClient defaultModel (fun _ => .ok (""))).attempts = 1 ∧
      (generate freshClient defaultModel (fun _ => .ok (""))).state.calls_made
        = freshClient.calls_made + 1) :=
  ⟨(C4_quota_retried_and_no_empty_check exhaustedClient (fun _ => .ok ("x"))).1 (by decide),
   (C4_quota_retried_and_no_empty_check freshClient (fun _ => .ok (""))).2 (by decide) rfl⟩

/-- C5: `calls_made` never decreases across any sequence of `generate`
calls; one body execution increments it exactly when the completion call
succeeds and leaves it unchanged on failure; a whole decorated call
increments it exactly when its final outcome is a success; and
`get_remaining_quota` is the pure value `monthly_quota - calls_made`. -/
theorem C5_quota_monotonicity :
    ∀ (s : ClientState) (m : String) (chat : Except String String)
      (oracle : Nat → Except String String) (oracles : List (Nat → Except String String)),
      ((exceptIsOk (generate_attempt s m chat).result = true →
          (generate_attempt s m chat).state.calls_made = s.calls_made + 1) ∧
       (exceptIsOk (generate_attempt s m chat).result = false →
          (generate_attempt s m chat).state.calls_made = s.calls_made)) ∧
      ((generate s m oracle).state.calls_made
         = s.calls_made + (if (generate s m oracle).outcome.isOk then 1 else 0)) ∧
      (s.calls_made ≤ (runGenerates s m oracles).calls_made) ∧
      (get_remaining_quota s = (s.monthly_quota : Int) - (s.calls_made : Int)) := by
  intro s m chat oracle oracles
  refine ⟨⟨?_, ?_⟩, (generate_calls s m oracle).1, runGenerates_mono m oracles s, rfl⟩
  · intro h
    have h1 := (generate_attempt_calls s m chat).1
    simpa [h] using h1
  · intro h
    have h1 := (generate_attempt_calls s m chat).1
    simpa [h] using h1

/-- Witness for C5 at concrete inputs. -/
theorem C5_quota_monotonicity_witness :
    (generate_attempt freshClient defaultModel (.ok ("hi"))).state.calls_made
      = freshClient.calls_made + 1 ∧
    freshClient.calls_made
      ≤ (runGenerates freshClient defaultModel [fun _ => .ok ("hi")]).calls_made :=
  ⟨(C5_quota_monotonicity freshClient defaultModel (.ok ("hi")) (fun _ => .ok ("hi"))
      [fun _ => .ok ("hi")]).1.1 (by decide),
   (C5_quota_monotonicity freshClient defaultModel (.ok ("hi")) (fun _ => .ok ("hi"))
      [fun _ => .ok ("hi")]).2.2.1⟩

/-- Componentwise description of `implLoop`: each file contributes
independently to the four accumulators. -/
theorem implLoop_components (gen : String → Except String String)
    (bk : String → String → String) (instr : String) :
    ∀ repo : List (String × String),
      implLoop gen bk instr repo =
        (repo.filterMap (fun pr =>
           match gen (buildPrompt instr pr.2) with
           | .ok m => if m ≠ "" ∧ m ≠ pr.2 then some (mfEntry bk pr.1 pr.2 m) else none
           | .error _ => none),
         repo.filterMap (fun pr =>
           match gen (buildPrompt instr pr.2) with
           | .ok _ => none
           | .error e => some (fileError pr.1 e)),
         repo.filterMap (fun pr =>
           match gen (buildPrompt instr pr.2) with
           | .ok m => some (if m ≠ "" ∧ m ≠ pr.2 then modifiedLog pr.1 else noChangeLog pr.1)
           | .error _ => none),
         (repo.filterMap (fun pr =>
           match gen (buildPrompt instr pr.2) with
           | .ok _ => none
           | .error e => some (fileError pr.1 e))).isEmpty) := by
  intro repo
  induction repo with
  | nil => rfl
  | cons pr rest ih =>
    obtain ⟨p, o⟩ := pr
    cases hg : gen (buildPrompt instr o) with
    | ok m =>
      by_cases hc : m ≠ "" ∧ m ≠ o
      · simp [implLoop, hg, hc, ih, List.filterMap_cons, mfEntry]
      · simp [implLoop, hg, hc, ih, List.filterMap_cons]
    | error e =>
      simp [implLoop, hg, ih, List.filterMap_cons]

/-- When generation fails exactly on the (unique) file `k`, the error
accumulator holds exactly one entry and it is tied to `k`. -/
theorem errors_single (gen : String → Except String String) (instr k : String) :
    ∀ repo : List (String × String),
      (repo.map Prod.fst).Nodup →
      (∀ p o, (p, o) ∈ repo → (exceptIsOk (gen (buildPrompt instr o)) = false ↔ p = k)) →
      (∃ ko, (k, ko) ∈ repo) →
      (repo.filterMap (fun pr =>
         match gen (buildPrompt instr pr.2) with
         | .ok _ => none
         | .error e => some (fileError pr.1 e))).map ErrorRec.file_path = [some k] := by
  intro repo
  induction repo with
  | nil =>
    intro _ _ hex
    exact absurd hex (by simp)
  | cons pr rest ih =>
    obtain ⟨p, o⟩ := pr
    intro hnd hiff hex
    have hnd2 : p ∉ rest.map Prod.fst ∧ (rest.map Prod.fst).Nodup := by
      rw [List.map_cons, List.nodup_cons] at hnd
      exact hnd
    cases hg : gen (buildPrompt instr o) with
    | error e =>
      have hpk : p = k := (hiff p o (by simp)).mp (by simp [hg, exceptIsOk])
      have hrest : rest.filterMap (fun pr =>
          match gen (buildPrompt instr pr.2) with
          | .ok _ => none
          | .error e => some (fileError pr.1 e)) = [] := by
        rw [List.filterMap_eq_nil_iff]
        intro pr hmem
        obtain ⟨q, u⟩ := pr
        have hqk : q ≠ k := by
          intro hqk'
          have hq : q ∈ rest.map Prod.fst := List.mem_map.mpr ⟨(q, u), hmem, rfl⟩
          rw [hqk', ← hpk] at hq
          exact hnd2.1 hq
        cases hq2 : gen (buildPrompt instr u) with
        | ok _ => simp [hq2]
        | error e2 =>
          exact absurd ((hiff q u (by simp [hmem])).mp (by simp [hq2, exceptIsOk])) hqk
      rw [List.filterMap_cons]
      simp only [hg]
      rw [hrest]
      simp [fileError, hpk]
    | ok m =>
      have hpk : p ≠ k := by
        intro hpk'
        have := (hiff p o (by simp)).mpr hpk'
        simp [hg, exceptIsOk] at this
      obtain ⟨ko, hko⟩ := hex
      have hko' : (k, ko) ∈ rest := by
        rcases List.mem_cons.mp hko with h | h
        · exact absurd (congrArg Prod.fst h).symm hpk
        · exact h
      have hr := ih hnd2.2 (fun q u hm => hiff q u (by simp [hm])) ⟨ko, hko'⟩
      rw [List.filterMap_cons]
      simp only [hg]
      exact hr

/-- C6: `implement_changes` reports success exactly when no error was
recorded; and when generation raises on exactly one file `k` (unique among
the paths) the result has exactly one `Error`, tied to `k`, `success` is
false, and every other file is represented by a `ModifiedFile` or by a no-op
log line. -/
theorem C6_implementation_isolation :
    ∀ (gen : String → Except String String) (bk : String → String → String)
      (repo : List (String × String)) (instructions k : String),
      ((implement_changes gen bk repo instructions).success
         = (implement_changes gen bk repo instructions).errors.isEmpty) ∧
      ((repo.map Prod.fst).Nodup →
       (∀ p o, (p, o) ∈ repo →
          (exceptIsOk (gen (buildPrompt instructions o)) = false ↔ p = k)) →
       (∃ ko, (k, ko) ∈ repo) →
       ((implement_changes gen bk repo instructions).errors.map ErrorRec.file_path = [some k] ∧
        (implement_changes gen bk repo instructions).success = false ∧
        (∀ p o, (p, o) ∈ repo → p ≠ k →
          (∃ mf ∈ (implement_changes gen bk repo instructions).modified_files, mf.path = p) ∨
          noChangeLog p ∈ (implement_changes gen bk repo instructions).execution_logs))) := by
  intro gen bk repo instructions k
  have hcomp := implLoop_components gen bk instructions repo
  have hsucc : (implement_changes gen bk repo instructions).success
      = (implement_changes gen bk repo instructions).errors.isEmpty := by
    simp [implement_changes, hcomp, Bool.and_self]
  refine ⟨hsucc, fun hnd hiff hex => ?_⟩
  have herr := errors_single gen instructions k repo hnd hiff hex
  have herrs : (implement_changes gen bk repo instructions).errors.map ErrorRec.file_path
      = [some k] := by
    simpa [implement_changes, hcomp] using herr
  refine ⟨herrs, ?_, ?_⟩
  · rw [hsucc]
    have hlen : (implement_changes gen bk repo instructions).errors.length = 1 := by
      have := congrArg List.length herrs
      simpa using this
    cases herrl : (implement_changes gen bk repo instructions).errors with
    | nil => rw [herrl] at hlen; simp at hlen
    | cons x xs => simp [herrl]
  · intro p o hmem hpk
    have hok : ∃ m, gen (buildPrompt instructions o) = .ok m := by
      cases hg : gen (buildPrompt instructions o) with
      | ok m => exact ⟨m, rfl⟩
      | error e =>
        exact absurd ((hiff p o hmem).mp (by simp [hg, exceptIsOk])) hpk
    obtain ⟨m, hm⟩ := hok
    by_cases hc : m ≠ "" ∧ m ≠ o
    · left
      refine ⟨mfEntry bk p o m, ?_, rfl⟩
      have hmf : (implement_changes gen bk repo instructions).modified_files
          = repo.filterMap (fun pr =>
              match gen (buildPrompt instructions pr.2) with
              | .ok m => if m ≠ "" ∧ m ≠ pr.2 then some (mfEntry bk pr.1 pr.2 m) else none
              | .error _ => none) := by
        simp [implement_changes, hcomp]
      rw [hmf]
      exact List.mem_filterMap.mpr ⟨(p, o), hmem, by simp [hm, hc]⟩
    · right
      have hlg : (implement_changes gen bk repo instructions).execution_logs
          = repo.filterMap (fun pr =>
              match gen (buildPrompt instructions pr.2) with
              | .ok m => some (if m ≠ "" ∧ m ≠ pr.2 then modifiedLog pr.1 else noChangeLog pr.1)
              | .error _ => none) := by
        simp [implement_changes, hcomp]
      rw [hlg]
      exact List.mem_filterMap.mpr ⟨(p, o), hmem, by simp [hm, hc]⟩

/-- The splitlines worker returns the empty list only on wholly empty
input. -/
theorem splitlinesAux_eq_nil :
    ∀ (l cur : List Char), splitlinesAux l cur = [] ↔ l = [] ∧ cur = [] := by
  intro l cur
  induction l, cur using splitlinesAux.induct with
  | case1 => simp [splitlinesAux]
  | case2 cur h =>
    simp [splitlinesAux]
    exact h
  | case3 rest cur ih => simp [splitlinesAux]
  | case4 c rest cur h hb ih => simp [splitlinesAux, hb, h]
  | case5 c rest cur h hb ih => simp [splitlinesAux, hb, h, ih]

/-- The `s.splitlines() == []` exactly for the empty string. -/
theorem splitlines_eq_nil_iff (s : String) : splitlines s = [] ↔ s = "" := by
  unfold splitlines
  rw [splitlinesAux_eq_nil]
  cases s with
  | mk data =>
    simp only [and_true]
    constructor
    · intro h
      rw [h]
    · intro h
      have := congrArg String.data h
      simpa using this

/-- A no-op path (equal line sequences) contributes nothing. -/
theorem processPath_eq_none (base modified : List (String × String)) (p : String)
    (h : splitlines (dictGet base p) = splitlines (dictGet modified p)) :
    processPath base modified p = none := by
  simp [processPath, h]

/-- The `generate_diff(X, X)` skips every path. -/
theorem processPath_refl (X : List (String × String)) (p : String) :
    processPath X X p = none :=
  processPath_eq_none X X p rfl

/-- A produced entry carries its own path, records differing line sequences,
and its counts and text come from its diff lines by the counting scan. -/
theorem mkPathDiff_spec (p : String) (diff summary : List String) :
    (mkPathDiff p diff summary).fd.path = p ∧
    (mkPathDiff p diff summary).added = countAdded (mkPathDiff p diff summary).diffLines ∧
    (mkPathDiff p diff summary).removed = countRemoved (mkPathDiff p diff summary).diffLines ∧
    (mkPathDiff p diff summary).fd.diff_text
      = String.intercalate ("\n") (mkPathDiff p diff summary).diffLines :=
  ⟨rfl, rfl, rfl, rfl⟩

/-- See `mkPathDiff_spec`: every entry `processPath` produces carries its own
path, records differing line sequences, and its counts and text come from
its diff lines by the counting scan. -/
theorem processPath_some_spec (base modified : List (String × String)) (p : String)
    (e : PathDiff) (he : processPath base modified p = some e) :
    e.fd.path = p ∧
    splitlines (dictGet base p) ≠ splitlines (dictGet modified p) ∧
    e.added = countAdded e.diffLines ∧
    e.removed = countRemoved e.diffLines ∧
    e.fd.diff_text = String.intercalate ("\n") e.diffLines := by
  simp only [processPath] at he
  split at he
  · exact absurd he (by simp)
  · next hne =>
    have he2 := Option.some.inj he
    obtain ⟨h1, h2, h3, h4⟩ := mkPathDiff_spec p
      (unifiedDiff (splitlines (dictGet base p)) (splitlines (dictGet modified p))
        ("base/" ++ p) ("mod/" ++ p))
      (if splitlines (dictGet base p) = [] then ["File Added"]
       else if splitlines (dictGet modified p) = [] then ["File Removed"]
       else ["Lines Changed: " ++ toString (unifiedDiff (splitlines (dictGet base p))
         (splitlines (dictGet modified p)) ("base/" ++ p) ("mod/" ++ p)).length])
    rw [he2] at h1 h2 h3 h4
    exact ⟨h1, hne, h2, h3, h4⟩

/-- An add-classified entry for a path whose base side has no lines and
whose modified side has some. -/
theorem processPath_added (base modified : List (String × String)) (p : String)
    (h0 : splitlines (dictGet base p) = []) (h1 : splitlines (dictGet modified p) ≠ []) :
    ∃ e, processPath base modified p = some e ∧
      e.fd.path = p ∧ e.fd.change_summary = ["File Added"] := by
  have hne : splitlines (dictGet base p) ≠ splitlines (dictGet modified p) :=
    fun hc => h1 (hc ▸ h0)
  simp only [processPath]
  rw [if_neg hne, h0]
  exact ⟨_, rfl, by simp [mkPathDiff], by simp [mkPathDiff]⟩

/-- A remove-classified entry for a path whose modified side has no lines
and whose base side has some. -/
theorem processPath_removed (base modified : List (String × String)) (p : String)
    (h0 : splitlines (dictGet modified p) = []) (h1 : splitlines (dictGet base p) ≠ []) :
    ∃ e, processPath base modified p = some e ∧
      e.fd.path = p ∧ e.fd.change_summary = ["File Removed"] := by
  have hne : splitlines (dictGet base p) ≠ splitlines (dictGet modified p) :=
    fun hc => h1 (hc.trans h0)
  simp only [processPath]
  rw [if_neg hne, h0]
  exact ⟨_, rfl, by simp [mkPathDiff], by simp [mkPathDiff, h1]⟩

/-- Membership through the first-occurrence accumulator of `allKeys`. -/
theorem foldl_addKey_mem :
    ∀ (l acc : List String) (x : String),
      (x ∈ l.foldl (fun acc k => if k ∈ acc then acc else acc ++ [k]) acc) ↔
        x ∈ acc ∨ x ∈ l := by
  intro l
  induction l with
  | nil => intro acc x; simp
  | cons c rest ih =>
    intro acc x
    rw [List.foldl_cons]
    by_cases hc : c ∈ acc
    · rw [if_pos hc, ih]
      simp only [List.mem_cons]
      constructor
      · tauto
      · rintro (h | h | h)
        · tauto
        · subst h; tauto
        · tauto
    · rw [if_neg hc, ih]
      simp only [List.mem_append, List.mem_singleton, List.mem_cons]
      tauto

/-- The `allKeys` enumerates exactly the union of the two key sets. -/
theorem mem_allKeys (base modified : List (String × String)) (p : String) :
    p ∈ allKeys base modified ↔
      p ∈ base.map Prod.fst ∨ p ∈ modified.map Prod.fst := by
  unfold allKeys
  rw [foldl_addKey_mem]
  simp

/-- A successful lookup witnesses key membership. -/
theorem lookup_some_mem {β : Type} (l : List (String × β)) (k : String) (v : β)
    (h : l.lookup k = some v) : k ∈ l.map Prod.fst := by
  induction l with
  | nil => simp [List.lookup] at h
  | cons pr rest ih =>
    obtain ⟨a, b⟩ := pr
    by_cases hk : k = a
    · simp [hk]
    · rw [List.lookup_cons] at h
      have hba : (k == a) = false := beq_eq_false_iff_ne.mpr hk
      rw [hba] at h
      exact List.mem_cons.mpr (Or.inr (ih h))

/-- Definitional projections of `generate_diff`. -/
theorem generate_diff_file_diffs (base modified : List (String × String)) :
    (generate_diff base modified).file_diffs
      = ((allKeys base modified).filterMap (processPath base modified)).map PathDiff.fd := rfl

/-- See `generate_diff_file_diffs`. -/
theorem generate_diff_files_changed (base modified : List (String × String)) :
    (generate_diff base modified).files_changed
      = ((allKeys base modified).filterMap (processPath base modified)).length := rfl

/-- See `generate_diff_file_diffs`. -/
theorem generate_diff_lines_added (base modified : List (String × String)) :
    (generate_diff base modified).lines_added
      = (((allKeys base modified).filterMap (processPath base modified)).map PathDiff.added).sum := rfl

/-- See `generate_diff_file_diffs`. -/
theorem generate_diff_lines_removed (base modified : List (String × String)) :
    (generate_diff base modified).lines_removed
      = (((allKeys base modified).filterMap (processPath base modified)).map PathDiff.removed).sum := rfl

/-- A produced per-path entry appears among the reported file diffs. -/
theorem generate_diff_mem_fd (base modified : List (String × String)) (p : String)
    (e : PathDiff) (hp : p ∈ allKeys base modified)
    (he : processPath base modified p = some e) :
    e.fd ∈ (generate_diff base modified).file_diffs := by
  rw [generate_diff_file_diffs]
  exact List.mem_map.mpr ⟨e, List.mem_filterMap.mpr ⟨p, hp, he⟩, rfl⟩

/-- Summing a projection over a `filterMap` equals summing its defaulted
per-key values. -/
theorem sum_filterMap_getD (keys : List String) (f : String → Option PathDiff)
    (g : PathDiff → Nat) :
    ((keys.filterMap f).map g).sum
      = (keys.map (fun q => (Option.map g (f q)).getD 0)).sum := by
  induction keys with
  | nil => rfl
  | cons c rest ih =>
    rw [List.filterMap_cons]
    cases hc : f c with
    | none => simp [hc, ih]
    | some e => simp [hc, ih]

/-- C7: `generate_diff(X, X)` reports zero files changed, zero lines added
and removed, and an empty diff list; in general a path whose line sequences
agree in both snapshots (including empty-on-both-sides or absent-from-both,
since absent and empty both split to no lines) yields no `FileDiff`, and
`files_changed` counts exactly the produced `FileDiff`s, so no-op paths do
not count toward the totals. -/
theorem C7_diff_idempotent :
    ∀ (X base modified : List (String × String)) (p : String),
      (generate_diff X X).files_changed = 0 ∧
      (generate_diff X X).lines_added = 0 ∧
      (generate_diff X X).lines_removed = 0 ∧
      (generate_diff X X).file_diffs = [] ∧
      (splitlines (dictGet base p) = splitlines (dictGet modified p) →
        ∀ fd ∈ (generate_diff base modified).file_diffs, fd.path ≠ p) ∧
      (generate_diff base modified).files_changed
        = (generate_diff base modified).file_diffs.length := by
  intro X base modified p
  have hnil : (allKeys X X).filterMap (processPath X X) = [] :=
    List.filterMap_eq_nil_iff.mpr (fun q _ => processPath_refl X q)
  refine ⟨?_, ?_, ?_, ?_, ?_, ?_⟩
  · rw [generate_diff_files_changed, hnil]
    rfl
  · rw [generate_diff_lines_added, hnil]
    rfl
  · rw [generate_diff_lines_removed, hnil]
    rfl
  · rw [generate_diff_file_diffs, hnil]
    rfl
  · intro h fd hmem hpath
    rw [generate_diff_file_diffs] at hmem
    obtain ⟨e, he, rfl⟩ := List.mem_map.mp hmem
    obtain ⟨q, hq, heq⟩ := List.mem_filterMap.mp he
    have hspec := processPath_some_spec base modified q e heq
    have hqp : q = p := hspec.1.symm.trans hpath
    subst hqp
    exact hspec.2.1 h
  · rw [generate_diff_files_changed, generate_diff_file_diffs, List.length_map]

/-- Witness for C7 at concrete snapshots. -/
theorem C7_diff_idempotent_witness :
    (generate_diff [("main.py", "print(1)")] [("main.py", "print(1)")]).files_changed = 0 ∧
    (generate_diff [("main.py", "print(1)")] [("main.py", "print(1)")]).file_diffs = [] ∧
    (∀ fd ∈ (generate_diff [("a.py", "x")] [("a.py", "x"), ("b.py", "y")]).file_diffs,
      fd.path ≠ "a.py") :=
  ⟨(C7_diff_idempotent [("main.py", "print(1)")] [] [] ("")).1,
   (C7_diff_idempotent [("main.py", "print(1)")] [] [] ("")).2.2.2.1,
   (C7_diff_idempotent [] [("a.py", "x")] [("a.py", "x"), ("b.py", "y")] ("a.py")).2.2.2.2.1
     (by decide)⟩

/-- C8 counterexample: a path present only in the modified snapshot but with
empty content produces no `FileDiff` at all — it is not reported as
"File Added", against the claim read over every path present only in
`modified`. -/
theorem C8_counterexample :
    List.lookup ("new.py") ([] : List (String × String)) = none ∧
    List.lookup ("new.py") [("new.py", "")] = some ("") ∧
    (generate_diff [] [("new.py", "")]).file_diffs = [] ∧
    (generate_diff [] [("new.py", "")]).files_changed = 0 :=
  ⟨rfl, rfl, rfl, rfl⟩

/-- C8 (amended): a path present only in `modified` whose content splits to
at least one line is reported with change summary `File Added`, and
symmetrically `File Removed` for a path present only in `base` (a one-sided
path with empty content produces no report); the added/removed totals are
the per-changed-path counts of diff lines prefixed `+`/`-` excluding the
`+++`/`---` header lines; and on the documented example the result has
`files_changed = 1` and `lines_added >= 1`. -/
theorem C8_detection_and_counts :
    ∀ (base modified : List (String × String)) (p c : String),
      (base.lookup p = none → modified.lookup p = some c → splitlines c ≠ [] →
        ∃ fd ∈ (generate_diff base modified).file_diffs,
          fd.path = p ∧ fd.change_summary = ["File Added"]) ∧
      (modified.lookup p = none → base.lookup p = some c → splitlines c ≠ [] →
        ∃ fd ∈ (generate_diff base modified).file_diffs,
          fd.path = p ∧ fd.change_summary = ["File Removed"]) ∧
      ((generate_diff base modified).lines_added
        = ((allKeys base modified).map
            (fun q => (Option.map PathDiff.added (processPath base modified q)).getD 0)).sum) ∧
      ((generate_diff base modified).lines_removed
        = ((allKeys base modified).map
            (fun q => (Option.map PathDiff.removed (processPath base modified q)).getD 0)).sum) ∧
      (∀ (q : String) (e : PathDiff), processPath base modified q = some e →
        e.added = countAdded e.diffLines ∧ e.removed = countRemoved e.diffLines ∧
        e.fd.diff_text = String.intercalate ("\n") e.diffLines) ∧
      (generate_diff [("main.py", "print(1)")]
        [("main.py", "print(1)"), ("new.py", "print(\x27new\x27)")]).files_changed = 1 ∧
      1 ≤ (generate_diff [("main.py", "print(1)")]
        [("main.py", "print(1)"), ("new.py", "print(\x27new\x27)")]).lines_added := by
  intro base modified p c
  refine ⟨?_, ?_, ?_, ?_, ?_, by decide, by decide⟩
  · intro hbn hms hsl
    have h0 : splitlines (dictGet base p) = [] := by
      rw [show dictGet base p = "" by simp [dictGet, hbn]]
      rfl
    have h1 : splitlines (dictGet modified p) ≠ [] := by
      rw [show dictGet modified p = c by simp [dictGet, hms]]
      exact hsl
    obtain ⟨e, he, hp, hs⟩ := processPath_added base modified p h0 h1
    exact ⟨e.fd, generate_diff_mem_fd base modified p e
      (by rw [mem_allKeys]; exact Or.inr (lookup_some_mem modified p c hms)) he, hp, hs⟩
  · intro hmn hbs hsl
    have h0 : splitlines (dictGet modified p) = [] := by
      rw [show dictGet modified p = "" by simp [dictGet, hmn]]
      rfl
    have h1 : splitlines (dictGet base p) ≠ [] := by
      rw [show dictGet base p = c by simp [dictGet, hbs]]
      exact hsl
    obtain ⟨e, he, hp, hs⟩ := processPath_removed base modified p h0 h1
    exact ⟨e.fd, generate_diff_mem_fd base modified p e
      (by rw [mem_allKeys]; exact Or.inl (lookup_some_mem base p c hbs)) he, hp, hs⟩
  · rw [generate_diff_lines_added, sum_filterMap_getD]
  · rw [generate_diff_lines_removed, sum_filterMap_getD]
  · intro q e he
    have hspec := processPath_some_spec base modified q e he
    exact ⟨hspec.2.2.1, hspec.2.2.2.1, hspec.2.2.2.2⟩

/-- Witness for C8 (amended) at the documented example. -/
theorem C8_detection_witness :
    ∃ fd ∈ (generate_diff [("main.py", "print(1)")]
        [("main.py", "print(1)"), ("new.py", "print(\x27new\x27)")]).file_diffs,
      fd.path = "new.py" ∧ fd.change_summary = ["File Added"] :=
  (C8_detection_and_counts [("main.py", "print(1)")]
      [("main.py", "print(1)"), ("new.py", "print(\x27new\x27)")]
      ("new.py") ("print(\x27new\x27)")).1 (by decide) (by decide) (by decide)

/-- C10: `generate_diff` classifies by content emptiness, not key absence:
a path present in both snapshots with empty base content and non-empty
modified content is summarized `File Added`, and symmetrically `File
Removed` when the modified content is the empty string. -/
theorem C10_empty_content_classification :
    ∀ (base modified : List (String × String)) (p c : String),
      (base.lookup p = some ("") → modified.lookup p = some c → c ≠ "" →
        ∃ fd ∈ (generate_diff base modified).file_diffs,
          fd.path = p ∧ fd.change_summary = ["File Added"]) ∧
      (modified.lookup p = some ("") → base.lookup p = some c → c ≠ "" →
        ∃ fd ∈ (generate_diff base modified).file_diffs,
          fd.path = p ∧ fd.change_summary = ["File Removed"]) := by
  intro base modified p c
  constructor
  · intro hb hm hc
    have h0 : splitlines (dictGet base p) = [] := by
      rw [show dictGet base p = "" by simp [dictGet, hb]]
      rfl
    have h1 : splitlines (dictGet modified p) ≠ [] := by
      rw [show dictGet modified p = c by simp [dictGet, hm]]
      exact fun hh => hc ((splitlines_eq_nil_iff c).mp hh)
    obtain ⟨e, he, hp, hs⟩ := processPath_added base modified p h0 h1
    exact ⟨e.fd, generate_diff_mem_fd base modified p e
      (by rw [mem_allKeys]; exact Or.inl (lookup_some_mem base p ("") hb)) he, hp, hs⟩
  · intro hm hb hc
    have h0 : splitlines (dictGet modified p) = [] := by
      rw [show dictGet modified p = "" by simp [dictGet, hm]]
      rfl
    have h1 : splitlines (dictGet base p) ≠ [] := by
      rw [show dictGet base p = c by simp [dictGet, hb]]
      exact fun hh => hc ((splitlines_eq_nil_iff c).mp hh)
    obtain ⟨e, he, hp, hs⟩ := processPath_removed base modified p h0 h1
    exact ⟨e.fd, generate_diff_mem_fd base modified p e
      (by rw [mem_allKeys]; exact Or.inl (lookup_some_mem base p c hb)) he, hp, hs⟩

/-- Witness for C10 at concrete snapshots. -/
theorem C10_empty_content_witness :
    (∃ fd ∈ (generate_diff [("a.py", "")] [("a.py", "x")]).file_diffs,
      fd.path = "a.py" ∧ fd.change_summary = ["File Added"]) ∧
    (∃ fd ∈ (generate_diff [("b.py", "y")] [("b.py", "")]).file_diffs,
      fd.path = "b.py" ∧ fd.change_summary = ["File Removed"]) :=
  ⟨(C10_empty_content_classification [("a.py", "")] [("a.py", "x")] ("a.py") ("x")).1
      rfl rfl (by decide),
   (C10_empty_content_classification [("b.py", "y")] [("b.py", "")] ("b.py") ("y")).2
      rfl rfl (by decide)⟩

/-- Witness for C6 on a two-file repository whose second file fails. -/
theorem C6_implementation_isolation_witness :
    (implement_changes genOneFail bkSuffix [("a.py", "ok1"), ("b.py", "bad")] ("instr")).errors.map
        ErrorRec.file_path = [some ("b.py")] ∧
    (implement_changes genOneFail bkSuffix [("a.py", "ok1"), ("b.py", "bad")] ("instr")).success
        = false ∧
    ((∃ mf ∈ (implement_changes genOneFail bkSuffix [("a.py", "ok1"), ("b.py", "bad")]
          ("instr")).modified_files, mf.path = "a.py") ∨
      noChangeLog ("a.py") ∈ (implement_changes genOneFail bkSuffix
        [("a.py", "ok1"), ("b.py", "bad")] ("instr")).execution_logs) := by
  have hiffW : ∀ p o, (p, o) ∈ [("a.py", "ok1"), ("b.py", "bad")] →
      (exceptIsOk (genOneFail (buildPrompt ("instr") o)) = false ↔ p = "b.py") := by
    intro p o hmem
    simp only [List.mem_cons, List.not_mem_nil, or_false] at hmem
    rcases hmem with h | h <;>
      (rw [Prod.mk.injEq] at h; obtain ⟨hp, ho⟩ := h; subst hp; subst ho; decide)
  have h := (C6_implementation_isolation genOneFail bkSuffix
    [("a.py", "ok1"), ("b.py", "bad")] ("instr") ("b.py")).2
    (by decide) hiffW ⟨"bad", by decide⟩
  exact ⟨h.1, h.2.1, h.2.2 ("a.py") ("ok1") (by decide) (by decide)⟩
